import Mathlib

/-!
Verification of the Flatcar Linux Update Operator coordination protocol.

The development shallowly embeds the update-agent (pkg/agent/agent.go), the
shared label/annotation helpers (pkg/k8sutil/metadata.go) and the operator
reconciler, and proves properties of the embedded functions.

Labels and annotations on a machine record are modelled as association lists
of strings (`Store`), matching the Go `map[string]string` observed through
reads and writes of individual keys.
-/

namespace Fluo

/-- Association-list store for Kubernetes labels/annotations
(`map[string]string` in Go, observed through per-key reads). -/
abbrev Store := List (String × String)

/-- Read a key; `none` models an absent key. -/
def lookupS : Store → String → Option String
  | [], _ => none
  | (k, v) :: s, q => if q == k then some v else lookupS s q

/-- Remove a key (Go `delete(m, k)`). -/
def delS : Store → String → Store
  | [], _ => []
  | p :: s, k => if p.1 == k then delS s k else p :: delS s k

/-- Write a key (Go `m[k] = v`). -/
def setS (s : Store) (k v : String) : Store :=
  (k, v) :: delS s k

/-- Write every pair of `kvs` in order (Go `for k, v := range kvs`). -/
def setAllS (s : Store) (kvs : List (String × String)) : Store :=
  kvs.foldl (fun acc kv => setS acc kv.1 kv.2) s

/-- Delete every key of `ks` (Go `for _, k := range ks`). -/
def delAllS (s : Store) (ks : List String) : Store :=
  ks.foldl delS s

/-- Last binding of `k` in a pair list, if any. -/
def lastFind : List (String × String) → String → Option String
  | [], _ => none
  | p :: ps, k =>
    match lastFind ps k with
    | some v => some v
    | none => if p.1 == k then some p.2 else none

/- Coordination vocabulary, from pkg/constants/constants.go.
All keys share the prefix literal "flatcar-linux-update.v1.flatcar-linux.net/";
the constants below are spelled out in full. -/

/-- constants.AnnotationRebootNeeded. -/
def annoRebootNeeded : String := "flatcar-linux-update.v1.flatcar-linux.net/reboot-needed"

/-- constants.LabelRebootNeeded (same suffix, used as a label key). -/
def labelRebootNeeded : String := "flatcar-linux-update.v1.flatcar-linux.net/reboot-needed"

/-- constants.AnnotationRebootInProgress. -/
def annoRebootInProgress : String := "flatcar-linux-update.v1.flatcar-linux.net/reboot-in-progress"

/-- constants.AnnotationOkToReboot. -/
def annoOkToReboot : String := "flatcar-linux-update.v1.flatcar-linux.net/reboot-ok"

/-- constants.AnnotationRebootPaused. -/
def annoRebootPaused : String := "flatcar-linux-update.v1.flatcar-linux.net/reboot-paused"

/-- constants.AnnotationStatus. -/
def annoStatus : String := "flatcar-linux-update.v1.flatcar-linux.net/status"

/-- constants.AnnotationLastCheckedTime. -/
def annoLastCheckedTime : String := "flatcar-linux-update.v1.flatcar-linux.net/last-checked-time"

/-- constants.AnnotationNewVersion. -/
def annoNewVersion : String := "flatcar-linux-update.v1.flatcar-linux.net/new-version"

/-- constants.AnnotationAgentMadeUnschedulable. -/
def annoAgentMadeUnschedulable : String := "flatcar-linux-update.v1.flatcar-linux.net/agent-made-unschedulable"

/-- constants.LabelBeforeReboot. -/
def labelBeforeReboot : String := "flatcar-linux-update.v1.flatcar-linux.net/before-reboot"

/-- constants.LabelAfterReboot. -/
def labelAfterReboot : String := "flatcar-linux-update.v1.flatcar-linux.net/after-reboot"

/-- constants.LabelID. -/
def labelID : String := "flatcar-linux-update.v1.flatcar-linux.net/id"

/-- constants.LabelGroup. -/
def labelGroup : String := "flatcar-linux-update.v1.flatcar-linux.net/group"

/-- constants.LabelVersion. -/
def labelVersion : String := "flatcar-linux-update.v1.flatcar-linux.net/version"

/- Host configuration files (pkg/agent/agent.go: splitNewlineEnv, getUpdateMap,
getReleaseMap, getVersionInfo). -/

/-- Split a character list at every occurrence of `c`
(`String.splitOn` over the underlying characters). -/
def splitOnChar (c : Char) (cs : List Char) : List (List Char) :=
  cs.foldr
    (fun x acc =>
      match acc with
      | [] => if x = c then [[], []] else [[x]]
      | cur :: done => if x = c then [] :: cur :: done else (x :: cur) :: done)
    [[]]

/-- Split a character list at the first `=`, when there is one
(`strings.SplitN(line, "=", 2)`). -/
def splitKV : List Char → Option (List Char × List Char)
  | [] => none
  | x :: xs =>
    if x = '=' then some ([], xs)
    else (splitKV xs).map (fun p => (x :: p.1, p.2))

/-- One line of a KEY=VALUE file, as split by
`strings.SplitN(sc.Text(), "=", 2)`: lines without "=" are skipped,
otherwise the key is the text before the first "=" and the value the rest. -/
def parseEnvLine (line : List Char) : Option (String × String) :=
  match splitKV line with
  | none => none
  | some (k, v) => some (String.mk k, String.mk v)

/-- All KEY=VALUE pairs of a file body, in line order
(bufio.Scanner iteration in splitNewlineEnv). -/
def envPairs (envs : String) : List (String × String) :=
  (splitOnChar (Char.ofNat 10) envs.data).filterMap parseEnvLine

/-- agent.go splitNewlineEnv: fold the parsed pairs into an existing map. -/
def splitNewlineEnv (m : Store) (envs : String) : Store :=
  (envPairs envs).foldl (fun acc kv => setS acc kv.1 kv.2) m

/-- Result of `ioutil.ReadFile` on one host file: the content, a
"does not exist" error (`os.IsNotExist`), or another read error
(e.g. permission denied). -/
inductive FileRead where
  | readOk (content : String)
  | errNotExist
  | errOther
deriving DecidableEq, Repr

/-- The three host files the agent reads, under the configured
filesystem path prefix. -/
structure HostFiles where
  /-- /usr/share/flatcar/update.conf -/
  usrUpdateConf : FileRead
  /-- /etc/flatcar/update.conf -/
  etcUpdateConf : FileRead
  /-- /etc/os-release -/
  osRelease : FileRead
deriving DecidableEq, Repr

/-- Read errors surfaced by the version-info functions; the payload names the
file whose read failed. -/
inductive ReadErr where
  | usrUpdateConfErr
  | etcUpdateConfErr
  | osReleaseErr
deriving DecidableEq, Repr

/-- agent.go getUpdateMap: /usr/share/flatcar/update.conf must be readable;
/etc/flatcar/update.conf is merged on top when present, a missing override is
skipped (merging empty content), any other override read error is fatal. -/
def getUpdateMap (fs : HostFiles) : Except ReadErr Store :=
  match fs.usrUpdateConf with
  | .errNotExist => .error .usrUpdateConfErr
  | .errOther => .error .usrUpdateConfErr
  | .readOk b =>
    let infomap := splitNewlineEnv [] b
    match fs.etcUpdateConf with
    | .readOk b2 => .ok (splitNewlineEnv infomap b2)
    | .errNotExist => .ok (splitNewlineEnv infomap "")
    | .errOther => .error .etcUpdateConfErr

/-- agent.go getReleaseMap: /etc/os-release must be readable. -/
def getReleaseMap (fs : HostFiles) : Except ReadErr Store :=
  match fs.osRelease with
  | .errNotExist => .error .osReleaseErr
  | .errOther => .error .osReleaseErr
  | .readOk b => .ok (splitNewlineEnv [] b)

/-- agent.go versionInfo. -/
structure VersionInfo where
  id : String
  group : String
  version : String
deriving DecidableEq, Repr

/-- agent.go getVersionInfo: update map first, then release map; a Go map read
of an absent key yields the empty string. -/
def getVersionInfo (fs : HostFiles) : Except ReadErr VersionInfo :=
  match getUpdateMap fs with
  | .error e => .error e
  | .ok updateconf =>
    match getReleaseMap fs with
    | .error e => .error e
    | .ok osrelease =>
      .ok { id := (lookupS osrelease "ID").getD ""
            group := (lookupS updateconf "GROUP").getD ""
            version := (lookupS osrelease "VERSION").getD "" }

/-- Whether an `Except` is an error. -/
def isErrE {ε α : Type} : Except ε α → Bool
  | .error _ => true
  | .ok _ => false

/- Machine record (Kubernetes Node object), restricted to the fields the
protocol reads and writes. -/

/-- One machine record: its annotations, labels and the
`spec.unschedulable` field. -/
structure MachineNode where
  annos : Store
  labels : Store
  unschedulable : Bool
deriving DecidableEq, Repr

/-- Protocol truth of an annotation: the literal "true"; every other value,
including an absent key, reads as false (§3 of the data model and the Go
comparisons `m[k] == constants.True`). -/
def isTrueA (n : MachineNode) (k : String) : Bool :=
  lookupS n.annos k == some "true"

/-- Protocol truth of a label. -/
def isTrueL (n : MachineNode) (k : String) : Bool :=
  lookupS n.labels k == some "true"

/-- One write against the machine record, as issued by the k8sutil helpers:
a metadata update merging annotation and label maps in a single
`UpdateNodeRetry` mutation (SetNodeAnnotationsLabels and friends), or a write
of the unschedulable field (k8sutil.Unschedulable). -/
inductive WriteOp where
  | meta (annos : Store) (labels : Store)
  | sched (unschedulable : Bool)
deriving DecidableEq, Repr

/-- Apply one write to the record. -/
def applyOp (n : MachineNode) : WriteOp → MachineNode
  | .meta a l => { n with annos := setAllS n.annos a, labels := setAllS n.labels l }
  | .sched b => { n with unschedulable := b }

/-- Apply a sequence of writes in order. -/
def applyOps (n : MachineNode) (ops : List WriteOp) : MachineNode :=
  ops.foldl applyOp n

/-- Annotation map carried by a write. -/
def opAnnos : WriteOp → Store
  | .meta a _ => a
  | .sched _ => []

/-- Label map carried by a write. -/
def opLabels : WriteOp → Store
  | .meta _ l => l
  | .sched _ => []

/- Agent startup (pkg/agent/agent.go, process). -/

/-- agent.go setInfoLabels: one SetNodeLabels write of the identity labels. -/
def infoLabelsOp (vi : VersionInfo) : WriteOp :=
  .meta [] [(labelID, vi.id), (labelGroup, vi.group), (labelVersion, vi.version)]

/-- agent.go process: the single SetNodeAnnotationsLabels write that resets
reboot-in-progress=false and reboot-needed=false together with the
reboot-needed label=false. -/
def startupResetOp : WriteOp :=
  .meta [(annoRebootInProgress, "false"), (annoRebootNeeded, "false")]
    [(labelRebootNeeded, "false")]

/-- agent.go process, makeSchedulable branch: clear the unschedulable field
(k8sutil.Unschedulable false), then set agent-made-unschedulable=false
(SetNodeAnnotations), in that order. -/
def makeSchedulableOps : List WriteOp :=
  [.sched false, .meta [(annoAgentMadeUnschedulable, "false")] []]

/-- agent.go maxOperatorResponseTime = 24 * time.Hour, in nanoseconds. -/
def maxOperatorResponseTime : Nat := 24 * 60 * 60 * 1000000000

/-- Watch event kinds of the Kubernetes watch API used by the agent. -/
inductive WatchKind where
  | added
  | modified
  | deleted
  | errorEvent
deriving DecidableEq, Repr

/-- One event observed on the node watch: its arrival time (nanoseconds since
the watch started) and the node object it carries. -/
structure WatchEvent where
  t : Nat
  kind : WatchKind
  node : MachineNode
deriving DecidableEq, Repr

/-- Errors of the agent's startup path. -/
inductive AgentErr where
  | watchTimeout
  | watchFailed
  | nodeDeleted
deriving DecidableEq, Repr

/-- agent.go waitForNotOkToReboot, inner watch condition (watchF): an Error
event fails the wait, a Deleted event fails the wait, an Added or Modified
event completes it exactly when reboot-ok is not the literal "true". -/
def notOkCondF (e : WatchEvent) : Except AgentErr Bool :=
  match e.kind with
  | .errorEvent => .error .watchFailed
  | .deleted => .error .nodeDeleted
  | .added => .ok (lookupS e.node.annos annoOkToReboot != some "true")
  | .modified => .ok (lookupS e.node.annos annoOkToReboot != some "true")

/-- watchtools.UntilWithoutRetry under a context deadline: events are
processed in arrival order; an event past the deadline is never delivered
(the context times out first), a satisfying event completes the wait, and an
exhausted stream is a timeout. -/
def untilWithoutRetry (cond : WatchEvent → Except AgentErr Bool) (deadline : Nat) :
    List WatchEvent → Except AgentErr WatchEvent
  | [] => .error .watchTimeout
  | e :: es =>
    if deadline < e.t then .error .watchTimeout
    else
      match cond e with
      | .error err => .error err
      | .ok true => .ok e
      | .ok false => untilWithoutRetry cond deadline es

/-- agent.go waitForNotOkToReboot: return at once when reboot-ok is not
"true" on the current record, otherwise watch with the 24 h deadline. -/
def waitForNotOkToReboot (n : MachineNode) (events : List WatchEvent) :
    Except AgentErr Unit :=
  if lookupS n.annos annoOkToReboot != some "true" then .ok ()
  else
    match untilWithoutRetry notOkCondF maxOperatorResponseTime events with
    | .error e => .error e
    | .ok _ => .ok ()

/-- agent.go process, steps before the update-engine listener starts: set the
identity labels, read agent-made-unschedulable from the record, issue the
atomic reset write, wait for not-ok-to-reboot (`events` is the node watch the
wait observes), then undo unschedulable when this agent had set it. Any wait
error aborts the startup (process returns the error; Run does not retry).
Returns the resulting record and the ordered writes issued. -/
def processStartup (vi : VersionInfo) (n : MachineNode) (events : List WatchEvent) :
    Except AgentErr (MachineNode × List WriteOp) :=
  let n1 := applyOp n (infoLabelsOp vi)
  let makeSched := lookupS n1.annos annoAgentMadeUnschedulable == some "true"
  let n2 := applyOp n1 startupResetOp
  match waitForNotOkToReboot n2 events with
  | .error e => .error e
  | .ok _ =>
    if makeSched then
      .ok (applyOps n2 makeSchedulableOps,
        [infoLabelsOp vi, startupResetOp] ++ makeSchedulableOps)
    else
      .ok (n2, [infoLabelsOp vi, startupResetOp])

/- Update-engine status callback (pkg/agent/agent.go, updateStatusCallback and
watchUpdateStatus; pkg/updateengine status vocabulary). -/

/-- updateengine.UpdateStatusUpdatedNeedReboot. -/
def updateStatusUpdatedNeedReboot : String := "UPDATE_STATUS_UPDATED_NEED_REBOOT"

/-- updateengine.Status, restricted to the fields the callback reads
(LastCheckedTime, CurrentOperation, NewVersion; Progress and NewSize are
never consulted by the agent). -/
structure UEStatus where
  lastCheckedTime : Int
  currentOperation : String
  newVersion : String
deriving DecidableEq, Repr

/-- agent.go updateStatusCallback: the annotation/label write it issues for a
status. The reboot-needed pair is added exactly for
UPDATE_STATUS_UPDATED_NEED_REBOOT. -/
def updateStatusOp (s : UEStatus) : WriteOp :=
  let base := [(annoStatus, s.currentOperation),
    (annoLastCheckedTime, toString s.lastCheckedTime),
    (annoNewVersion, s.newVersion)]
  if s.currentOperation == updateStatusUpdatedNeedReboot then
    .meta (base ++ [(annoRebootNeeded, "true")]) [(labelRebootNeeded, "true")]
  else
    .meta base []

/-- agent.go watchUpdateStatus: statuses whose CurrentOperation equals the
previously handled one are dropped; the callback fires on the rest. Returns
the statuses the callback is invoked with, given the statuses received on the
channel (oldOperation starts as the empty string). -/
def watchUpdateStatus (old : String) : List UEStatus → List UEStatus
  | [] => []
  | s :: rest =>
    if s.currentOperation == old then watchUpdateStatus old rest
    else s :: watchUpdateStatus s.currentOperation rest

/-- k8s.io wait.PollImmediateUntil: run the condition immediately and then
once per interval; stop with the successful attempt index, or with `none`
when the stop channel fires (checked after each failed attempt) or the fuel
(number of polling rounds observed) runs out. -/
def pollImmediateUntil (cond : Nat → Bool) (stopped : Nat → Bool) :
    Nat → Nat → Option Nat
  | 0, _ => none
  | fuel + 1, i =>
    if cond i then some i
    else if stopped i then none
    else pollImmediateUntil cond stopped fuel (i + 1)

/-- Number of condition attempts wait.PollImmediateUntil performs. -/
def pollAttempts (cond : Nat → Bool) (stopped : Nat → Bool) :
    Nat → Nat → Nat
  | 0, _ => 0
  | fuel + 1, i =>
    if cond i then 1
    else if stopped i then 1
    else 1 + pollAttempts cond stopped fuel (i + 1)

/-- wait.NeverStop: a stop channel that never fires. -/
def neverStop : Nat → Bool := fun _ => false

/-- agent.go updateStatusCallback retry loop: the write is polled with
wait.PollImmediateUntil(defaultPollInterval, condF, wait.NeverStop); the
agent's own cancellation signal is not wired into it. `writeOk i` tells
whether the i-th SetNodeAnnotationsLabels attempt succeeds. -/
def statusWriteRetry (writeOk : Nat → Bool) (fuel : Nat) : Option Nat :=
  pollImmediateUntil writeOk neverStop fuel 0

/-- Attempt count of the agent's status-write retry loop. The `cancelled`
argument is the agent's cancellation signal, which the source discards by
passing wait.NeverStop. -/
def statusWriteRetryAttempts (writeOk : Nat → Bool) (cancelled : Nat → Bool)
    (fuel : Nat) : Nat :=
  pollAttempts writeOk neverStop fuel 0

/-- Modelled from the spec claim wording ("retried ... until it succeeds or
cancellation fires"): attempt count of a retry loop that does stop when the
cancellation signal fires. Stated for comparison against
`statusWriteRetryAttempts`. -/
def claimRetryAttempts (writeOk : Nat → Bool) (cancelled : Nat → Bool)
    (fuel : Nat) : Nat :=
  pollAttempts writeOk cancelled fuel 0

/- Pod-termination wait (pkg/agent/agent.go, waitForPodDeletion and the drain
section of process). -/

/-- Outcome of one `Pods(ns).Get(ctx, name, ...)` during the wait: the pod is
gone, a pod with some UID exists under that name, or the get failed with any
other error. -/
inductive PodGetResult where
  | notFound
  | found (uid : Nat)
  | errOther
deriving DecidableEq, Repr

/-- agent.go waitForPodDeletion poll condition: done on IsNotFound, done when
the pod found under the name carries a different UID than the deleted pod,
not done otherwise (other errors are logged and polling continues). -/
def podGoneCheck (uid : Nat) : PodGetResult → Bool
  | .notFound => true
  | .found u => u != uid
  | .errOther => false

/-- k8s.io wait.PollImmediate(interval, timeout, cond): the condition runs
immediately and then once per interval until it reports done or the timeout
elapses; `fuel` is the number of attempts the timeout window allows
(PodDeletionGracePeriod / defaultPollInterval rounds). Returns whether the
condition reported done before the timeout. -/
def pollImmediate (cond : Nat → Bool) : Nat → Nat → Bool
  | 0, _ => false
  | fuel + 1, i => if cond i then true else pollImmediate cond fuel (i + 1)

/-- agent.go waitForPodDeletion for a pod with UID `uid`; `gets i` is the
outcome of the i-th get. No stop or cancellation signal reaches this wait
(process uses context.TODO() and wait.PollImmediate takes none). -/
def waitForPodDeletion (uid : Nat) (gets : Nat → PodGetResult) (fuel : Nat) : Bool :=
  pollImmediate (fun i => podGoneCheck uid (gets i)) fuel 0

/-- agent.go process, drain section (after the pods were deleted): wait for
every pod with waitForPodDeletion — a failed wait is only logged ("Skipping
wait on pod") — then invoke the reboot trigger `k.lc.Reboot(false)`
unconditionally and return without error. `stopFired` is the agent's stop
signal, which is in scope but not consulted anywhere before sleepOrDone.
Returns the per-pod wait results, whether the reboot trigger was invoked, and
the error process returns from this section. -/
def drainAndRebootStep (stopFired : Nat → Bool)
    (pods : List (Nat × (Nat → PodGetResult))) (fuel : Nat) :
    List Bool × Bool × Option AgentErr :=
  let waitResults := pods.map (fun p => waitForPodDeletion p.1 p.2 fuel)
  (waitResults, true, none)

/- Operator reconciler. The reconciler implementation is not part of this
source tree (only its test suite is), so the definitions below are modelled
from the spec, §4.1: five ordered phases, each listing records and updating
the matching ones, with admission bounded by MaxRebooting. The behaviour was
cross-checked against the operator test suite. -/

/-- Modelled from the spec: the operator configuration fields the phases
read. `windowOpen` is whether the parsed reboot window currently contains
now (an unconfigured window is always open). The reconciler implementation
is missing from the source tree. -/
structure OperCfg where
  beforeHooks : List String
  afterHooks : List String
  maxRebooting : Nat
  windowOpen : Bool
deriving DecidableEq, Repr

/-- Hook annotation names are operator-chosen names distinct from the
protocol's own coordination keys. -/
def cfgWellFormed (cfg : OperCfg) : Prop :=
  (annoRebootNeeded ∉ cfg.beforeHooks ∧ annoRebootNeeded ∉ cfg.afterHooks)
  ∧ (annoOkToReboot ∉ cfg.beforeHooks ∧ annoOkToReboot ∉ cfg.afterHooks)
  ∧ (annoRebootInProgress ∉ cfg.beforeHooks ∧ annoRebootInProgress ∉ cfg.afterHooks)
  ∧ (annoRebootPaused ∉ cfg.beforeHooks ∧ annoRebootPaused ∉ cfg.afterHooks)

/-- Modelled from the spec: InPipeline — a record is in the reboot pipeline
when any of before-reboot=true, reboot-ok=true or reboot-in-progress=true
holds. -/
def inPipeline (n : MachineNode) : Bool :=
  isTrueL n labelBeforeReboot || isTrueA n annoOkToReboot
    || isTrueA n annoRebootInProgress

/-- Number of records currently in the pipeline. -/
def countPipeline (ns : List MachineNode) : Nat :=
  (ns.filter inPipeline).length

/-- All configured hook annotations read the literal "true" on the record. -/
def allHooksTrue (n : MachineNode) (hooks : List String) : Bool :=
  hooks.all (fun h => lookupS n.annos h == some "true")

/-- Modelled from the spec, phase 1 condition: before-reboot=true and the
record no longer needs a reboot (reboot-needed ≠ true or
reboot-paused = true). -/
def cleanupCond (n : MachineNode) : Bool :=
  isTrueL n labelBeforeReboot
    && (!isTrueA n annoRebootNeeded || isTrueA n annoRebootPaused)

/-- Modelled from the spec, phase 1 update: clear the before-reboot label and
all configured before-hook annotations; reboot-ok is not written. -/
def cleanupNode (cfg : OperCfg) (n : MachineNode) : MachineNode :=
  { n with labels := delS n.labels labelBeforeReboot
           annos := delAllS n.annos cfg.beforeHooks }

/-- Modelled from the spec, phase 2 condition: after-reboot=true and every
configured after-hook annotation true. -/
def finishCond (cfg : OperCfg) (n : MachineNode) : Bool :=
  isTrueL n labelAfterReboot && allHooksTrue n cfg.afterHooks

/-- Modelled from the spec, phase 2 update: clear the after-reboot label and
all after-hook annotations, set reboot-ok=false. -/
def finishNode (cfg : OperCfg) (n : MachineNode) : MachineNode :=
  { n with labels := delS n.labels labelAfterReboot
           annos := setS (delAllS n.annos cfg.afterHooks) annoOkToReboot "false" }

/-- Modelled from the spec, phase 3 condition: reboot-ok=true,
reboot-needed=false, reboot-in-progress=false and after-reboot not already
set. -/
def scheduleAfterCond (n : MachineNode) : Bool :=
  isTrueA n annoOkToReboot && !isTrueA n annoRebootNeeded
    && !isTrueA n annoRebootInProgress && !isTrueL n labelAfterReboot

/-- Modelled from the spec, phase 3 update: set after-reboot=true and clear
all after-hook annotations. -/
def scheduleAfterNode (cfg : OperCfg) (n : MachineNode) : MachineNode :=
  { n with labels := setS n.labels labelAfterReboot "true"
           annos := delAllS n.annos cfg.afterHooks }

/-- Modelled from the spec, phase 4 condition: before-reboot=true and every
configured before-hook annotation true. -/
def confirmCond (cfg : OperCfg) (n : MachineNode) : Bool :=
  isTrueL n labelBeforeReboot && allHooksTrue n cfg.beforeHooks

/-- Modelled from the spec, phase 4 update: clear the before-reboot label and
all before-hook annotations, set reboot-ok=true. -/
def confirmNode (cfg : OperCfg) (n : MachineNode) : MachineNode :=
  { n with labels := delS n.labels labelBeforeReboot
           annos := setS (delAllS n.annos cfg.beforeHooks) annoOkToReboot "true" }

/-- Modelled from the spec, phase 5 candidate condition: reboot-needed=true,
reboot-paused ≠ true, reboot-ok ≠ true, before-reboot ≠ true, and not already
counted in the pipeline. -/
def rebootableCond (n : MachineNode) : Bool :=
  isTrueA n annoRebootNeeded && !isTrueA n annoRebootPaused
    && !isTrueA n annoOkToReboot && !isTrueL n labelBeforeReboot
    && !inPipeline n

/-- Modelled from the spec, phase 5 update: set before-reboot=true and clear
all before-hook annotations. -/
def admitNode (cfg : OperCfg) (n : MachineNode) : MachineNode :=
  { n with labels := setS n.labels labelBeforeReboot "true"
           annos := delAllS n.annos cfg.beforeHooks }

/-- Apply `f` to the first `budget` records satisfying `cond`, in list order
(the deterministic per-cycle order the spec requires); the rest are left
unchanged. -/
def applyFirst (cond : MachineNode → Bool) (f : MachineNode → MachineNode) :
    Nat → List MachineNode → List MachineNode
  | _, [] => []
  | 0, ns => ns
  | b + 1, n :: ns =>
    if cond n then f n :: applyFirst cond f b ns
    else n :: applyFirst cond f (b + 1) ns

/-- Modelled from the spec, phase 1 (Cleanup) over the listed records. -/
def phaseCleanup (cfg : OperCfg) (ns : List MachineNode) : List MachineNode :=
  ns.map (fun n => if cleanupCond n then cleanupNode cfg n else n)

/-- Modelled from the spec, phase 2 (Finish-after-hooks). -/
def phaseFinish (cfg : OperCfg) (ns : List MachineNode) : List MachineNode :=
  ns.map (fun n => if finishCond cfg n then finishNode cfg n else n)

/-- Modelled from the spec, phase 3 (Schedule-after-hooks). -/
def phaseScheduleAfter (cfg : OperCfg) (ns : List MachineNode) : List MachineNode :=
  ns.map (fun n => if scheduleAfterCond n then scheduleAfterNode cfg n else n)

/-- Modelled from the spec, phase 4 (Confirm-before-hooks). -/
def phaseConfirm (cfg : OperCfg) (ns : List MachineNode) : List MachineNode :=
  ns.map (fun n => if confirmCond cfg n then confirmNode cfg n else n)

/-- Modelled from the spec, phase 5 (Admit-new): while the reboot window is
open, admit candidates until the pipeline count reaches MaxRebooting; the
pipeline is counted on the state the phase observes. -/
def phaseAdmit (cfg : OperCfg) (ns : List MachineNode) : List MachineNode :=
  if cfg.windowOpen then
    applyFirst rebootableCond (admitNode cfg) (cfg.maxRebooting - countPipeline ns) ns
  else ns

/-- Modelled from the spec: one reconcile cycle, phases 1 to 5 in order. -/
def reconcile (cfg : OperCfg) (ns : List MachineNode) : List MachineNode :=
  phaseAdmit cfg (phaseConfirm cfg (phaseScheduleAfter cfg
    (phaseFinish cfg (phaseCleanup cfg ns))))

/- Fallible execution of a cycle, for the error-atomicity claim: each phase
issues one list call and then one update call per matching record; the cycle
aborts on the first failing call. -/

/-- Which cluster call of a phase fails: its list call, or its i-th update
call (0-based; the updates before it succeeded). -/
inductive CallFail where
  | listCall
  | updateCall (i : Nat)
deriving DecidableEq, Repr

/-- A phase as the fallible executor runs it: its full effect and its partial
effect after only the first `i` updates succeeded. -/
structure PhaseExec where
  full : List MachineNode → List MachineNode
  partialUpd : Nat → List MachineNode → List MachineNode

/-- Modelled from the spec: the five phases with their per-update partial
effects, in cycle order. -/
def phaseExecs (cfg : OperCfg) : List PhaseExec :=
  [ { full := phaseCleanup cfg
      partialUpd := fun i => applyFirst cleanupCond (cleanupNode cfg) i }
  , { full := phaseFinish cfg
      partialUpd := fun i => applyFirst (finishCond cfg) (finishNode cfg) i }
  , { full := phaseScheduleAfter cfg
      partialUpd := fun i => applyFirst scheduleAfterCond (scheduleAfterNode cfg) i }
  , { full := phaseConfirm cfg
      partialUpd := fun i => applyFirst (confirmCond cfg) (confirmNode cfg) i }
  , { full := phaseAdmit cfg
      partialUpd := fun i ns =>
        if cfg.windowOpen then
          applyFirst rebootableCond (admitNode cfg)
            (min (cfg.maxRebooting - countPipeline ns) i) ns
        else ns } ]

/-- Run phases in order; when `failure = some (k, c)`, call `c` of the k-th
remaining phase fails: the cycle stops there, keeping the effects of the
phases already completed and of the updates of the failing phase that
preceded the failing call, and reports the failure. -/
def runPhasesF (failure : Option (Nat × CallFail)) :
    List PhaseExec → List MachineNode → List MachineNode × Bool
  | [], ns => (ns, false)
  | p :: rest, ns =>
    match failure with
    | none => runPhasesF none rest (p.full ns)
    | some (0, .listCall) => (ns, true)
    | some (0, .updateCall i) => (p.partialUpd i ns, true)
    | some (k + 1, c) => runPhasesF (some (k, c)) rest (p.full ns)

/-- Modelled from the spec: one cycle of the reconciler under fault injection
(`failure` as in `runPhasesF`, indexed over the five phases). -/
def runReconcileF (cfg : OperCfg) (ns : List MachineNode)
    (failure : Option (Nat × CallFail)) : List MachineNode × Bool :=
  runPhasesF failure (phaseExecs cfg) ns

/-- State after the first `k` phases of a cycle (no faults). -/
def applyPhasesUpTo (cfg : OperCfg) (k : Nat) (ns : List MachineNode) :
    List MachineNode :=
  ((phaseExecs cfg).take k).foldl (fun s p => p.full s) ns

/-- Partial effect of the k-th phase after `i` successful updates. -/
def phasePartialAt (cfg : OperCfg) (k i : Nat) (ns : List MachineNode) :
    List MachineNode :=
  match (phaseExecs cfg).get? k with
  | some p => p.partialUpd i ns
  | none => ns

/- Observation helpers over results, used to state concrete consequences. -/

/-- Unschedulable field of a successful startup's record. -/
def startupOutUnsched (vi : VersionInfo) (n : MachineNode)
    (events : List WatchEvent) : Option Bool :=
  match processStartup vi n events with
  | .ok r => some r.1.unschedulable
  | .error _ => none

/-- One annotation of a successful startup's record. -/
def startupOutAnno (vi : VersionInfo) (n : MachineNode)
    (events : List WatchEvent) (k : String) : Option (Option String) :=
  match processStartup vi n events with
  | .ok r => some (lookupS r.1.annos k)
  | .error _ => none

/-- Write sequence of a successful startup. -/
def startupOutOps (vi : VersionInfo) (n : MachineNode)
    (events : List WatchEvent) : Option (List WriteOp) :=
  match processStartup vi n events with
  | .ok r => some r.2
  | .error _ => none

/-- One label of the i-th record of a cluster state. -/
def nodeAtLabel (ns : List MachineNode) (i : Nat) (k : String) :
    Option (Option String) :=
  (ns.get? i).map (fun r => lookupS r.labels k)

/-- One annotation of the i-th record of a cluster state. -/
def nodeAtAnno (ns : List MachineNode) (i : Nat) (k : String) :
    Option (Option String) :=
  (ns.get? i).map (fun r => lookupS r.annos k)

/-- An invariant of a cleaned-up record `m` descending from `r0` that every
later phase of the same cycle preserves: before-reboot stays cleared, the
before-hook annotations stay cleared, reboot-ok can only read true when it
already did on `r0`, and the record keeps not needing a reboot. -/
def cleanupStable (cfg : OperCfg) (r0 m : MachineNode) : Prop :=
  lookupS m.labels labelBeforeReboot = none
  ∧ (∀ h ∈ cfg.beforeHooks, lookupS m.annos h = none)
  ∧ (isTrueA m annoOkToReboot = true → isTrueA r0 annoOkToReboot = true)
  ∧ (isTrueA m annoRebootNeeded = false ∨ isTrueA m annoRebootPaused = true)

/- Concrete fixtures, mirroring the records of the reference test suites. -/

/-- Version info of a healthy host. -/
def exVersion : VersionInfo :=
  { id := "flatcar", group := "stable", version := "2345.3.0" }

/-- Record whose unschedulable flag was set by the agent before a restart. -/
def exNodeAmuTrue : MachineNode :=
  { annos := [(annoOkToReboot, "false"), (annoAgentMadeUnschedulable, "true")]
    labels := []
    unschedulable := true }

/-- Record made unschedulable by an external source. -/
def exNodeExternal : MachineNode :=
  { annos := [(annoOkToReboot, "false"), (annoAgentMadeUnschedulable, "false")]
    labels := []
    unschedulable := true }

/-- Idle record: every coordination field already reads false. -/
def exNodeIdle : MachineNode :=
  { annos := [(annoRebootInProgress, "false"), (annoRebootNeeded, "false"),
      (annoOkToReboot, "false")]
    labels := [(labelRebootNeeded, "false")]
    unschedulable := false }

/-- Record with the three reset fields already false but with
agent-made-unschedulable=true. -/
def exNodeCex : MachineNode :=
  { annos := [(annoRebootInProgress, "false"), (annoRebootNeeded, "false"),
      (annoOkToReboot, "false"), (annoAgentMadeUnschedulable, "true")]
    labels := [(labelRebootNeeded, "false")]
    unschedulable := true }

/-- Operator configuration with one hook of each kind. -/
def exCfg : OperCfg :=
  { beforeHooks := ["test-before-hook"]
    afterHooks := ["test-after-hook"]
    maxRebooting := 1
    windowOpen := true }

/-- Record wanting a reboot, admissible into the pipeline. -/
def exCandidate : MachineNode :=
  { annos := [(annoRebootNeeded, "true")], labels := [], unschedulable := false }

/-- Admissible record that still carries a stale before-hook annotation. -/
def exCandidateHooked : MachineNode :=
  { annos := [(annoRebootNeeded, "true"), ("test-before-hook", "false")]
    labels := []
    unschedulable := false }

/-- Record already granted permission (in the pipeline). -/
def exPipelineNode : MachineNode :=
  { annos := [(annoOkToReboot, "true"), (annoRebootNeeded, "true")]
    labels := []
    unschedulable := false }

/-- Record with only the after-reboot label set. -/
def exAfterOnly : MachineNode :=
  { annos := [(annoOkToReboot, "false")]
    labels := [(labelAfterReboot, "true")]
    unschedulable := false }

/-- Record scheduled for reboot whose reboot was cancelled. -/
def exCancelled : MachineNode :=
  { annos := [("test-before-hook", "true")]
    labels := [(labelBeforeReboot, "true")]
    unschedulable := false }

/-- Record untouched by every phase. -/
def exInert : MachineNode :=
  { annos := [("test-before-hook", "")], labels := [], unschedulable := false }

/- Store lemmas. -/

theorem lookupS_delS (s : Store) (k q : String) :
    lookupS (delS s k) q = if q = k then none else lookupS s q := by
  induction s with
  | nil => simp [delS, lookupS]
  | cons p s ih =>
    by_cases h1 : p.1 = k
    · have hb : (p.1 == k) = true := by simpa using h1
      simp only [delS, hb, if_true, ih]
      by_cases h2 : q = k
      · simp [h2]
      · have hq : (q == p.1) = false := by
          simp only [beq_eq_false_iff_ne, ne_eq, h1]
          exact h2
        simp [h2, lookupS, hq]
    · have hb : (p.1 == k) = false := by simpa using h1
      simp only [delS, hb, Bool.false_eq_true, if_false, lookupS]
      by_cases h3 : q = p.1
      · have hqk : q ≠ k := by rw [h3]; exact h1
        have hq : (q == p.1) = true := by simpa using h3
        simp [hq, hqk]
      · have hq : (q == p.1) = false := by simpa using h3
        simp [hq, ih]

theorem lookupS_setS (s : Store) (k v q : String) :
    lookupS (setS s k v) q = if q = k then some v else lookupS s q := by
  by_cases h : q = k
  · have hb : (q == k) = true := by simpa using h
    simp [setS, lookupS, hb, h]
  · have hb : (q == k) = false := by simpa using h
    simp [setS, lookupS, hb, h, lookupS_delS]

theorem lookupS_delAllS (s : Store) (ks : List String) (q : String) :
    lookupS (delAllS s ks) q = if q ∈ ks then none else lookupS s q := by
  induction ks generalizing s with
  | nil => simp [delAllS]
  | cons k ks ih =>
    simp only [delAllS, List.foldl_cons]
    have : delAllS (delS s k) ks = ks.foldl delS (delS s k) := rfl
    rw [← this, ih]
    by_cases h1 : q ∈ ks
    · simp [h1]
    · by_cases h2 : q = k
      · simp [h1, h2, lookupS_delS]
      · simp [h1, h2, lookupS_delS]

theorem lookupS_setAllS (s : Store) (kvs : List (String × String)) (q : String) :
    lookupS (setAllS s kvs) q =
      match lastFind kvs q with
      | some v => some v
      | none => lookupS s q := by
  induction kvs generalizing s with
  | nil => simp [setAllS, lastFind]
  | cons p kvs ih =>
    simp only [setAllS, List.foldl_cons]
    have : kvs.foldl (fun acc kv => setS acc kv.1 kv.2) (setS s p.1 p.2)
        = setAllS (setS s p.1 p.2) kvs := rfl
    rw [this, ih]
    cases hlf : lastFind kvs q with
    | some v => simp [lastFind, hlf]
    | none =>
      simp only [lastFind, hlf, lookupS_setS]
      by_cases h : q = p.1
      · have hb : (p.1 == q) = true := by simpa using h.symm
        simp [h, hb]
      · have hb : (p.1 == q) = false := by
          simpa using fun e => h e.symm
        simp [h, hb]

theorem splitNewlineEnv_eq_setAllS (m : Store) (envs : String) :
    splitNewlineEnv m envs = setAllS m (envPairs envs) := rfl

theorem lookupS_splitNewlineEnv (m : Store) (envs : String) (q : String) :
    lookupS (splitNewlineEnv m envs) q =
      match lookupS (splitNewlineEnv [] envs) q with
      | some v => some v
      | none => lookupS m q := by
  rw [splitNewlineEnv_eq_setAllS, splitNewlineEnv_eq_setAllS,
    lookupS_setAllS, lookupS_setAllS]
  cases lastFind (envPairs envs) q with
  | some v => simp
  | none => simp [lookupS]

/- Claim C9: host configuration files. -/

/-- Claim C9: reading version info fails exactly when
/usr/share/flatcar/update.conf or /etc/os-release is missing or unreadable or
/etc/flatcar/update.conf exists but is unreadable; a missing override file is
no error; and every key present in both update.conf files takes the value of
the /etc/flatcar/update.conf override. -/
theorem host_files_errors_and_override (fs : HostFiles) :
    (isErrE (getVersionInfo fs) = true ↔
      fs.usrUpdateConf = .errNotExist ∨ fs.usrUpdateConf = .errOther
      ∨ fs.osRelease = .errNotExist ∨ fs.osRelease = .errOther
      ∨ fs.etcUpdateConf = .errOther)
    ∧ (∀ cu ce m k v,
        fs.usrUpdateConf = .readOk cu → fs.etcUpdateConf = .readOk ce →
        getUpdateMap fs = .ok m →
        lookupS (splitNewlineEnv [] ce) k = some v →
        lookupS m k = some v) := by
  obtain ⟨u, e, o⟩ := fs
  constructor
  · cases u <;> cases e <;> cases o <;>
      simp [getVersionInfo, getUpdateMap, getReleaseMap, isErrE]
  · intro cu ce m k v hu he hm hk
    cases u <;> cases he <;> cases hu <;>
      simp only [getUpdateMap, Except.ok.injEq] at hm
    subst hm
    rw [lookupS_splitNewlineEnv, hk]

/-- Witness for C9: a concrete host where both update.conf files define GROUP
and the override wins, and where version info reads without error. -/
theorem host_files_errors_and_override_witness :
    lookupS
      (splitNewlineEnv (splitNewlineEnv [] "GROUP=usr\nSERVER=s") "GROUP=etc")
      "GROUP" = some "etc"
    ∧ isErrE (getVersionInfo
        { usrUpdateConf := .readOk "GROUP=usr\nSERVER=s"
          etcUpdateConf := .readOk "GROUP=etc"
          osRelease := .readOk "ID=flatcar" }) = false := by
  constructor
  · exact (host_files_errors_and_override
      { usrUpdateConf := .readOk "GROUP=usr\nSERVER=s"
        etcUpdateConf := .readOk "GROUP=etc"
        osRelease := .readOk "ID=flatcar" }).2
      "GROUP=usr\nSERVER=s" "GROUP=etc" _ "GROUP" "etc" rfl rfl rfl (by decide)
  · have h := (host_files_errors_and_override
      { usrUpdateConf := .readOk "GROUP=usr\nSERVER=s"
        etcUpdateConf := .readOk "GROUP=etc"
        osRelease := .readOk "ID=flatcar" }).1
    simp only [Bool.eq_false_iff, ne_eq]
    intro habs
    rcases h.mp habs with h1 | h1 | h1 | h1 | h1 <;> cases h1

/- Poll-loop lemmas. -/

theorem pollImmediate_eq_false (cond : Nat → Bool) (fuel i : Nat)
    (h : ∀ j, j < i + fuel → cond j = false) :
    pollImmediate cond fuel i = false := by
  induction fuel generalizing i with
  | zero => simp [pollImmediate]
  | succ fuel ih =>
    have hc : cond i = false := h i (by omega)
    simp only [pollImmediate, hc, Bool.false_eq_true, if_false]
    exact ih (i + 1) (fun j hj => h j (by omega))

theorem pollImmediate_eq_true (cond : Nat → Bool) (fuel i j : Nat)
    (hij : i ≤ j) (hj : j < i + fuel)
    (hbefore : ∀ l, i ≤ l → l < j → cond l = false)
    (hdone : cond j = true) :
    pollImmediate cond fuel i = true := by
  induction fuel generalizing i with
  | zero => omega
  | succ fuel ih =>
    by_cases hji : j = i
    · simp [pollImmediate, hji ▸ hdone]
    · have hc : cond i = false := hbefore i (le_refl i) (by omega)
      simp only [pollImmediate, hc, Bool.false_eq_true, if_false]
      exact ih (i + 1) (by omega) (by omega)
        (fun l hl1 hl2 => hbefore l (by omega) hl2)

theorem pollImmediateUntil_neverStop_success (cond : Nat → Bool)
    (fuel i j : Nat) (hij : i ≤ j) (hj : j < i + fuel)
    (hbefore : ∀ l, i ≤ l → l < j → cond l = false)
    (hdone : cond j = true) :
    pollImmediateUntil cond neverStop fuel i = some j
    ∧ pollAttempts cond neverStop fuel i = j - i + 1 := by
  induction fuel generalizing i with
  | zero => omega
  | succ fuel ih =>
    by_cases hji : j = i
    · subst hji
      simp [pollImmediateUntil, pollAttempts, hdone]
    · have hc : cond i = false := hbefore i (le_refl i) (by omega)
      have hrec := ih (i + 1) (by omega) (by omega)
        (fun l hl1 hl2 => hbefore l (by omega) hl2)
      simp only [pollImmediateUntil, pollAttempts, hc, Bool.false_eq_true,
        if_false, neverStop]
      refine ⟨hrec.1, ?_⟩
      rw [hrec.2]
      omega

/- Claim C10: pod-termination wait. -/

/-- Claim C10: during the post-drain wait, a pod counts as terminated exactly
when the get reports not-found or returns a pod under the same name with a
different UID; any other get outcome keeps the poll going, and a wait whose
gets keep erroring runs until the grace-period fuel is exhausted, while a
terminated observation within the window ends the wait successfully. -/
theorem pod_deletion_wait (uid : Nat) :
    (∀ r, podGoneCheck uid r = true ↔
      r = .notFound ∨ ∃ u, r = .found u ∧ u ≠ uid)
    ∧ (∀ gets fuel, (∀ i, i < fuel → gets i = .errOther) →
        waitForPodDeletion uid gets fuel = false)
    ∧ (∀ gets fuel j, j < fuel →
        (∀ i, i < j → podGoneCheck uid (gets i) = false) →
        podGoneCheck uid (gets j) = true →
        waitForPodDeletion uid gets fuel = true) := by
  refine ⟨?_, ?_, ?_⟩
  · intro r
    cases r with
    | notFound => simp [podGoneCheck]
    | found u => simp [podGoneCheck, bne_iff_ne]
    | errOther => simp [podGoneCheck]
  · intro gets fuel h
    refine pollImmediate_eq_false _ fuel 0 (fun j hj => ?_)
    have := h j (by omega)
    simp [this, podGoneCheck]
  · intro gets fuel j hj hbefore hdone
    exact pollImmediate_eq_true _ fuel 0 j (by omega) (by omega)
      (fun l _ hl => hbefore l hl) hdone

/-- Witness for C10: a pod whose gets error twice, then report a replacement
pod with a fresh UID at the third attempt; and a pod whose gets always error
until the fuel runs out. -/
theorem pod_deletion_wait_witness :
    waitForPodDeletion 7
      (fun i => if i < 2 then .errOther else .found 9) 5 = true
    ∧ waitForPodDeletion 7 (fun _ => .errOther) 5 = false := by
  constructor
  · exact (pod_deletion_wait 7).2.2 _ 5 2 (by omega)
      (fun i hi => by interval_cases i <;> decide) (by decide)
  · exact (pod_deletion_wait 7).2.1 _ 5 (fun i _ => rfl)

/- Claim C4: the drain wait is not preemptible by the agent's stop signal. -/

/-- Claim C4 fails on the code: the post-drain wait never consults the
agent's stop signal (process uses context.TODO() and wait.PollImmediate takes
no stop channel), wait errors are only logged, and the reboot trigger is
invoked in every case. Concretely, with the stop signal fired from the start
and a pod that never terminates, the drain section still times out the wait,
invokes the reboot and returns no cancellation error; and its outcome never
depends on the stop signal at all. -/
theorem drain_ignores_stop_signal :
    drainAndRebootStep (fun _ => true) [(7, fun _ => .found 7)] 5
      = ([false], true, none)
    ∧ ∀ stopF stopG pods fuel,
        drainAndRebootStep stopF pods fuel = drainAndRebootStep stopG pods fuel := by
  constructor
  · decide
  · intro stopF stopG pods fuel
    rfl

/- Claim C5: update-engine status callback. -/

/-- Claim C5 fails as stated: the status-write retry loop is invoked with
wait.NeverStop, so a fired cancellation does not stop the retries. With every
write attempt failing and the cancellation signal fired from the start, the
code performs as many write attempts as the polling window allows (three
rounds of fuel here), while a loop that stopped on success or cancellation
would stop after the first attempt. -/
theorem status_retry_ignores_cancellation :
    statusWriteRetryAttempts (fun _ => false) (fun _ => true) 3 = 3
    ∧ claimRetryAttempts (fun _ => false) (fun _ => true) 3 = 1
    ∧ (3 : Nat) ≠ 1 := by
  refine ⟨by decide, by decide, by omega⟩

/-- Claim C5 (amended): for each distinct status transition the agent writes
the status, last-checked-time and new-version annotations, adding
reboot-needed=true on both label and annotation exactly when the new status
is UPDATE_STATUS_UPDATED_NEED_REBOOT; statuses repeating the previous
operation are skipped; and the write is retried at the fixed poll interval
until it succeeds — the agent's cancellation signal is not wired into the
retry loop. -/
theorem agent_status_callback (s : UEStatus) (old : String)
    (rest : List UEStatus) (writeOk : Nat → Bool) (fuel j : Nat) :
    (lookupS (opAnnos (updateStatusOp s)) annoStatus = some s.currentOperation
      ∧ lookupS (opAnnos (updateStatusOp s)) annoLastCheckedTime
          = some (toString s.lastCheckedTime)
      ∧ lookupS (opAnnos (updateStatusOp s)) annoNewVersion = some s.newVersion)
    ∧ ((lookupS (opAnnos (updateStatusOp s)) annoRebootNeeded = some "true"
        ∧ lookupS (opLabels (updateStatusOp s)) labelRebootNeeded = some "true")
        ↔ s.currentOperation = updateStatusUpdatedNeedReboot)
    ∧ (s.currentOperation = old →
        watchUpdateStatus old (s :: rest) = watchUpdateStatus old rest)
    ∧ (s.currentOperation ≠ old →
        watchUpdateStatus old (s :: rest)
          = s :: watchUpdateStatus s.currentOperation rest)
    ∧ (j < fuel → (∀ i, i < j → writeOk i = false) → writeOk j = true →
        statusWriteRetry writeOk fuel = some j
        ∧ ∀ cancelled, statusWriteRetryAttempts writeOk cancelled fuel = j + 1) := by
  refine ⟨?_, ?_, ?_, ?_, ?_⟩
  · by_cases h : s.currentOperation = updateStatusUpdatedNeedReboot
    · have hb : (s.currentOperation == updateStatusUpdatedNeedReboot) = true := by
        simpa using h
      simp [updateStatusOp, hb, opAnnos, lookupS, annoStatus,
        annoLastCheckedTime, annoNewVersion]
    · have hb : (s.currentOperation == updateStatusUpdatedNeedReboot) = false := by
        simpa using h
      simp [updateStatusOp, hb, opAnnos, lookupS, annoStatus,
        annoLastCheckedTime, annoNewVersion]
  · by_cases h : s.currentOperation = updateStatusUpdatedNeedReboot
    · have hb : (s.currentOperation == updateStatusUpdatedNeedReboot) = true := by
        simpa using h
      simp [updateStatusOp, hb, opAnnos, opLabels, lookupS, annoStatus,
        annoLastCheckedTime, annoNewVersion, annoRebootNeeded,
        labelRebootNeeded, h]
    · have hb : (s.currentOperation == updateStatusUpdatedNeedReboot) = false := by
        simpa using h
      simp [updateStatusOp, hb, opAnnos, opLabels, lookupS, annoStatus,
        annoLastCheckedTime, annoNewVersion, annoRebootNeeded,
        labelRebootNeeded, h]
  · intro h
    have hb : (s.currentOperation == old) = true := by simpa using h
    simp [watchUpdateStatus, hb]
  · intro h
    have hb : (s.currentOperation == old) = false := by simpa using h
    simp [watchUpdateStatus, hb]
  · intro hj hbefore hdone
    have h := pollImmediateUntil_neverStop_success writeOk fuel 0 j
      (by omega) (by omega) (fun l _ hl => hbefore l hl) hdone
    refine ⟨h.1, fun cancelled => ?_⟩
    have := h.2
    simpa [statusWriteRetryAttempts] using this

/-- Witness for C5 (amended): the needs-reboot status written after one
failed attempt; a repeated status is skipped. -/
theorem agent_status_callback_witness :
    lookupS (opAnnos (updateStatusOp
      { lastCheckedTime := 12, currentOperation := "UPDATE_STATUS_UPDATED_NEED_REBOOT",
        newVersion := "2346.0.0" })) annoRebootNeeded = some "true"
    ∧ statusWriteRetry (fun i => i == 1) 5 = some 1
    ∧ statusWriteRetryAttempts (fun i => i == 1) (fun _ => true) 5 = 2
    ∧ watchUpdateStatus "UPDATE_STATUS_IDLE"
        [{ lastCheckedTime := 3, currentOperation := "UPDATE_STATUS_IDLE",
           newVersion := "" }] = [] := by
  have hmain := agent_status_callback
    { lastCheckedTime := 12, currentOperation := "UPDATE_STATUS_UPDATED_NEED_REBOOT",
      newVersion := "2346.0.0" }
    "UPDATE_STATUS_IDLE" [] (fun i => i == 1) 5 1
  have hskip := agent_status_callback
    { lastCheckedTime := 3, currentOperation := "UPDATE_STATUS_IDLE",
      newVersion := "" }
    "UPDATE_STATUS_IDLE" [] (fun i => i == 1) 5 1
  have hretry := hmain.2.2.2.2 (by omega)
    (fun i hi => by interval_cases i <;> decide) (by decide)
  refine ⟨(hmain.2.1.mpr rfl).1, hretry.1, hretry.2 (fun _ => true), ?_⟩
  have := hskip.2.2.1 rfl
  simpa [watchUpdateStatus] using this

/- Small write helpers and key facts. -/

theorem lookupS_set1 (s : Store) (k v q : String) :
    lookupS (setAllS s [(k, v)]) q = if q = k then some v else lookupS s q := by
  have h : setAllS s [(k, v)] = setS s k v := rfl
  rw [h, lookupS_setS]

theorem lookupS_set2 (s : Store) (k1 v1 k2 v2 q : String) :
    lookupS (setAllS s [(k1, v1), (k2, v2)]) q =
      if q = k2 then some v2 else if q = k1 then some v1 else lookupS s q := by
  have h : setAllS s [(k1, v1), (k2, v2)] = setS (setS s k1 v1) k2 v2 := rfl
  rw [h, lookupS_setS, lookupS_setS]

theorem lookupS_set3 (s : Store) (k1 v1 k2 v2 k3 v3 q : String) :
    lookupS (setAllS s [(k1, v1), (k2, v2), (k3, v3)]) q =
      if q = k3 then some v3
      else if q = k2 then some v2
      else if q = k1 then some v1
      else lookupS s q := by
  have h : setAllS s [(k1, v1), (k2, v2), (k3, v3)]
      = setS (setS (setS s k1 v1) k2 v2) k3 v3 := rfl
  rw [h, lookupS_setS, lookupS_setS, lookupS_setS]

theorem setAllS_nil (s : Store) : setAllS s [] = s := rfl

/- Claim C3: agent startup reset and not-ok-to-reboot wait. -/

theorem untilWithoutRetry_timeout (events : List WatchEvent)
    (hev : ∀ e ∈ events, e.t ≤ maxOperatorResponseTime →
      (e.kind = WatchKind.added ∨ e.kind = WatchKind.modified)
      ∧ lookupS e.node.annos annoOkToReboot = some "true") :
    untilWithoutRetry notOkCondF maxOperatorResponseTime events
      = .error .watchTimeout := by
  induction events with
  | nil => rfl
  | cons e es ih =>
    simp only [untilWithoutRetry]
    by_cases ht : maxOperatorResponseTime < e.t
    · simp [ht]
    · have h := hev e (List.mem_cons_self e es) (by omega)
      have hcond : notOkCondF e = .ok false := by
        rcases h.1 with hk | hk <;> simp [notOkCondF, hk, h.2]
      simp only [ht, if_false, hcond]
      exact ih (fun x hx hxt => hev x (List.mem_cons_of_mem e hx) hxt)

/-- Claim C3: the agent's startup issues the reboot-in-progress=false,
reboot-needed=false annotations and the reboot-needed=false label as one
single write, then waits for reboot-ok ≠ true; when every watch event within
MaxOperatorResponseTime still carries reboot-ok=true (or no event arrives in
time), the startup fails with the timeout error, which process propagates
without retrying. -/
theorem agent_startup_reset_then_wait_fatal (vi : VersionInfo)
    (n : MachineNode) (events : List WatchEvent)
    (hok : lookupS n.annos annoOkToReboot = some "true")
    (hev : ∀ e ∈ events, e.t ≤ maxOperatorResponseTime →
      (e.kind = WatchKind.added ∨ e.kind = WatchKind.modified)
      ∧ lookupS e.node.annos annoOkToReboot = some "true") :
    processStartup vi n events = .error .watchTimeout
    ∧ startupResetOp = WriteOp.meta
        [(annoRebootInProgress, "false"), (annoRebootNeeded, "false")]
        [(labelRebootNeeded, "false")]
    ∧ ∀ vi2 n2 ev2 res, processStartup vi2 n2 ev2 = .ok res →
        res.2.get? 1 = some startupResetOp := by
  have hok2 : lookupS (applyOp (applyOp n (infoLabelsOp vi))
      startupResetOp).annos annoOkToReboot = some "true" := by
    simp only [applyOp, infoLabelsOp, startupResetOp, setAllS_nil]
    rw [lookupS_set2]
    have d1 : annoOkToReboot ≠ annoRebootNeeded := by decide
    have d2 : annoOkToReboot ≠ annoRebootInProgress := by decide
    simp [d1, d2, hok]
  have hwait : waitForNotOkToReboot
      (applyOp (applyOp n (infoLabelsOp vi)) startupResetOp) events
      = .error .watchTimeout := by
    simp [waitForNotOkToReboot, hok2, untilWithoutRetry_timeout events hev]
  refine ⟨?_, rfl, ?_⟩
  · simp [processStartup, hwait]
  · intro vi2 n2 ev2 res hres
    simp only [processStartup] at hres
    cases hw : waitForNotOkToReboot
        (applyOp (applyOp n2 (infoLabelsOp vi2)) startupResetOp) ev2 with
    | error e => simp [hw] at hres
    | ok u =>
      simp only [hw] at hres
      by_cases hms : (lookupS (applyOp n2 (infoLabelsOp vi2)).annos
          annoAgentMadeUnschedulable == some "true") = true
      · simp only [hms, if_true, Except.ok.injEq] at hres
        rw [← hres]
        rfl
      · simp only [Bool.not_eq_true] at hms
        simp only [hms, Bool.false_eq_true, if_false, Except.ok.injEq] at hres
        rw [← hres]
        rfl

/-- Witness for C3: a record with reboot-ok=true and an empty watch stream
times out the startup; a record with reboot-ok=false starts up and its second
write is the atomic reset. -/
theorem agent_startup_reset_then_wait_fatal_witness :
    processStartup exVersion exPipelineNode [] = .error .watchTimeout
    ∧ startupOutOps exVersion exNodeIdle [] =
        some [infoLabelsOp exVersion, startupResetOp] := by
  have hmain := agent_startup_reset_then_wait_fatal exVersion exPipelineNode []
    (by decide) (fun e he => absurd he (List.not_mem_nil e))
  exact ⟨hmain.1, by decide⟩

/- Claim C7: unschedulable ownership at startup. -/

/-- Claim C7: when the record carries agent-made-unschedulable=true at
startup, the agent clears the unschedulable field and then (as the next
write) sets agent-made-unschedulable=false; with the annotation absent or
carrying any other value, the unschedulable field and the annotation are
left untouched and no unschedulable write is issued. -/
theorem agent_startup_unschedulable_ownership (vi : VersionInfo)
    (n : MachineNode) (events : List WatchEvent)
    (res : MachineNode × List WriteOp)
    (hrun : processStartup vi n events = .ok res) :
    (lookupS n.annos annoAgentMadeUnschedulable = some "true" →
      res.1.unschedulable = false
      ∧ lookupS res.1.annos annoAgentMadeUnschedulable = some "false"
      ∧ res.2 = [infoLabelsOp vi, startupResetOp, WriteOp.sched false,
          WriteOp.meta [(annoAgentMadeUnschedulable, "false")] []])
    ∧ (lookupS n.annos annoAgentMadeUnschedulable ≠ some "true" →
      res.1.unschedulable = n.unschedulable
      ∧ lookupS res.1.annos annoAgentMadeUnschedulable
          = lookupS n.annos annoAgentMadeUnschedulable
      ∧ res.2 = [infoLabelsOp vi, startupResetOp]) := by
  have hannos : (applyOp n (infoLabelsOp vi)).annos = n.annos := by
    simp [applyOp, infoLabelsOp, setAllS_nil]
  simp only [processStartup, hannos] at hrun
  cases hw : waitForNotOkToReboot
      (applyOp (applyOp n (infoLabelsOp vi)) startupResetOp) events with
  | error e => simp [hw] at hrun
  | ok u =>
    simp only [hw] at hrun
    have hamu2 : ∀ m : MachineNode, m.annos = n.annos →
        lookupS (applyOp m startupResetOp).annos annoAgentMadeUnschedulable
          = lookupS n.annos annoAgentMadeUnschedulable := by
      intro m hm
      simp only [applyOp, startupResetOp, hm]
      rw [lookupS_set2]
      have d1 : annoAgentMadeUnschedulable ≠ annoRebootNeeded := by decide
      have d2 : annoAgentMadeUnschedulable ≠ annoRebootInProgress := by decide
      simp [d1, d2]
    by_cases hamu : lookupS n.annos annoAgentMadeUnschedulable = some "true"
    · have hb : (lookupS n.annos annoAgentMadeUnschedulable == some "true")
          = true := by simpa using hamu
      simp only [hb, if_true, Except.ok.injEq] at hrun
      refine ⟨fun _ => ?_, fun hc => absurd hamu hc⟩
      rw [← hrun]
      refine ⟨rfl, ?_, rfl⟩
      simp only [applyOps, makeSchedulableOps, List.foldl_cons, List.foldl_nil,
        applyOp]
      rw [lookupS_set1]
      simp
    · have hb : (lookupS n.annos annoAgentMadeUnschedulable == some "true")
          = false := by simpa using hamu
      simp only [hb, Bool.false_eq_true, if_false, Except.ok.injEq] at hrun
      refine ⟨fun hc => absurd hc hamu, fun _ => ?_⟩
      rw [← hrun]
      refine ⟨rfl, ?_, rfl⟩
      exact hamu2 (applyOp n (infoLabelsOp vi)) hannos

/-- Witness for C7: startup against a record the agent had made
unschedulable clears the field and flips the annotation; startup against an
externally cordoned record leaves the field set. -/
theorem agent_startup_unschedulable_ownership_witness :
    startupOutUnsched exVersion exNodeAmuTrue [] = some false
    ∧ startupOutAnno exVersion exNodeAmuTrue [] annoAgentMadeUnschedulable
        = some (some "false")
    ∧ startupOutUnsched exVersion exNodeExternal [] = some true := by
  refine ⟨?_, ?_, ?_⟩
  · cases hrun : processStartup exVersion exNodeAmuTrue [] with
    | error e =>
      have hne : isErrE (processStartup exVersion exNodeAmuTrue []) = false := by
        decide
      rw [hrun] at hne
      simp [isErrE] at hne
    | ok res =>
      have h := (agent_startup_unschedulable_ownership exVersion exNodeAmuTrue
        [] res hrun).1 (by decide)
      simp [startupOutUnsched, hrun, h.1]
  · cases hrun : processStartup exVersion exNodeAmuTrue [] with
    | error e =>
      have hne : isErrE (processStartup exVersion exNodeAmuTrue []) = false := by
        decide
      rw [hrun] at hne
      simp [isErrE] at hne
    | ok res =>
      have h := (agent_startup_unschedulable_ownership exVersion exNodeAmuTrue
        [] res hrun).1 (by decide)
      simp [startupOutAnno, hrun, h.2.1]
  · cases hrun : processStartup exVersion exNodeExternal [] with
    | error e =>
      have hne : isErrE (processStartup exVersion exNodeExternal []) = false := by
        decide
      rw [hrun] at hne
      simp [isErrE] at hne
    | ok res =>
      have h := (agent_startup_unschedulable_ownership exVersion exNodeExternal
        [] res hrun).2 (by decide)
      simp only [startupOutUnsched, hrun, h.1]
      rfl

/- Claim C8: what the startup writes on an already-idle record. -/

/-- Claim C8 fails as stated: a record whose reboot-in-progress, reboot-needed
and reboot-ok fields all read false but which carries
agent-made-unschedulable=true has two coordination fields changed by the
agent's startup before any status is received: agent-made-unschedulable flips
to false and the unschedulable field is cleared. -/
theorem agent_startup_coordination_write_cex :
    lookupS exNodeCex.annos annoRebootInProgress = some "false"
    ∧ lookupS exNodeCex.annos annoRebootNeeded = some "false"
    ∧ lookupS exNodeCex.annos annoOkToReboot = some "false"
    ∧ lookupS exNodeCex.labels labelRebootNeeded = some "false"
    ∧ lookupS exNodeCex.annos annoAgentMadeUnschedulable = some "true"
    ∧ exNodeCex.unschedulable = true
    ∧ startupOutAnno exVersion exNodeCex [] annoAgentMadeUnschedulable
        = some (some "false")
    ∧ startupOutUnsched exVersion exNodeCex [] = some false := by decide

/-- Claim C8 (amended): an agent started against a record whose
reboot-in-progress, reboot-needed (annotation and label) and reboot-ok fields
already read the literal false, and whose agent-made-unschedulable is not
true, changes the value of no annotation and no unschedulable field before
the listener emits its first status (the reset re-asserts the existing
values); among the labels only the identity labels id, group and version are
written. -/
theorem agent_startup_noop_on_idle (vi : VersionInfo) (n : MachineNode)
    (events : List WatchEvent) (res : MachineNode × List WriteOp)
    (h1 : lookupS n.annos annoRebootInProgress = some "false")
    (h2 : lookupS n.annos annoRebootNeeded = some "false")
    (h3 : lookupS n.annos annoOkToReboot = some "false")
    (h4 : lookupS n.labels labelRebootNeeded = some "false")
    (h5 : lookupS n.annos annoAgentMadeUnschedulable ≠ some "true")
    (hrun : processStartup vi n events = .ok res) :
    (∀ k, lookupS res.1.annos k = lookupS n.annos k)
    ∧ res.1.unschedulable = n.unschedulable
    ∧ ∀ k, k ≠ labelID → k ≠ labelGroup → k ≠ labelVersion →
        lookupS res.1.labels k = lookupS n.labels k := by
  have hannos : (applyOp n (infoLabelsOp vi)).annos = n.annos := by
    simp [applyOp, infoLabelsOp, setAllS_nil]
  simp only [processStartup, hannos] at hrun
  cases hw : waitForNotOkToReboot
      (applyOp (applyOp n (infoLabelsOp vi)) startupResetOp) events with
  | error e => simp [hw] at hrun
  | ok u =>
    simp only [hw] at hrun
    have hb : (lookupS n.annos annoAgentMadeUnschedulable == some "true")
        = false := by simpa using h5
    simp only [hb, Bool.false_eq_true, if_false, Except.ok.injEq] at hrun
    rw [← hrun]
    have hannos2 : (applyOp (applyOp n (infoLabelsOp vi)) startupResetOp).annos
        = setAllS n.annos
            [(annoRebootInProgress, "false"), (annoRebootNeeded, "false")] := by
      simp [applyOp, infoLabelsOp, startupResetOp, setAllS_nil]
    have hlabels2 : (applyOp (applyOp n (infoLabelsOp vi)) startupResetOp).labels
        = setAllS (setAllS n.labels [(labelID, vi.id), (labelGroup, vi.group),
            (labelVersion, vi.version)]) [(labelRebootNeeded, "false")] := by
      simp [applyOp, infoLabelsOp, startupResetOp]
    refine ⟨?_, rfl, ?_⟩
    · intro k
      rw [hannos2, lookupS_set2]
      by_cases e1 : k = annoRebootNeeded
      · simp [e1, h2]
      · by_cases e2 : k = annoRebootInProgress
        · simp [e1, e2, h1]
        · simp [e1, e2]
    · intro k k1 k2 k3
      rw [hlabels2, lookupS_set1, lookupS_set3]
      by_cases e1 : k = labelRebootNeeded
      · simp [e1, h4]
      · simp [e1, k1, k2, k3]

/-- Witness for C8 (amended): the idle fixture keeps its reboot-needed value
and unschedulable field across the startup. -/
theorem agent_startup_noop_on_idle_witness :
    startupOutAnno exVersion exNodeIdle [] annoRebootNeeded
      = some (some "false")
    ∧ startupOutUnsched exVersion exNodeIdle [] = some false := by
  cases hrun : processStartup exVersion exNodeIdle [] with
  | error e =>
    have hne : isErrE (processStartup exVersion exNodeIdle []) = false := by
      decide
    rw [hrun] at hne
    simp [isErrE] at hne
  | ok res =>
    have h := agent_startup_noop_on_idle exVersion exNodeIdle [] res
      (by decide) (by decide) (by decide) (by decide) (by decide) hrun
    constructor
    · simp only [startupOutAnno, hrun]
      rw [h.1 annoRebootNeeded]
      decide
    · simp only [startupOutUnsched, hrun]
      rw [h.2.1]
      rfl

/- applyFirst lemmas. -/

theorem applyFirst_zero (cond : MachineNode → Bool) (f : MachineNode → MachineNode)
    (ns : List MachineNode) : applyFirst cond f 0 ns = ns := by
  cases ns <;> rfl

theorem applyFirst_get?_of_not_cond (cond : MachineNode → Bool)
    (f : MachineNode → MachineNode) (b : Nat) (ns : List MachineNode)
    (i : Nat) (m : MachineNode) (hi : ns.get? i = some m) (hm : cond m = false) :
    (applyFirst cond f b ns).get? i = some m := by
  induction ns generalizing b i with
  | nil => simp at hi
  | cons x xs ih =>
    cases b with
    | zero => rw [applyFirst_zero]; exact hi
    | succ b =>
      cases i with
      | zero =>
        simp only [List.get?] at hi
        injection hi with hx
        subst hx
        simp only [applyFirst, hm, Bool.false_eq_true, if_false, List.get?]
      | succ i =>
        simp only [List.get?] at hi
        by_cases hx : cond x = true
        · simp only [applyFirst, hx, if_true, List.get?]
          exact ih b i hi
        · simp only [Bool.not_eq_true] at hx
          simp only [applyFirst, hx, Bool.false_eq_true, if_false, List.get?]
          exact ih (b + 1) i hi

theorem applyFirst_append_skip (cond : MachineNode → Bool)
    (f : MachineNode → MachineNode) (b : Nat) (pre rest : List MachineNode)
    (hpre : ∀ x ∈ pre, cond x = false) :
    applyFirst cond f b (pre ++ rest) = pre ++ applyFirst cond f b rest := by
  induction pre with
  | nil => simp
  | cons x xs ih =>
    cases b with
    | zero => rw [applyFirst_zero, applyFirst_zero]
    | succ b =>
      have hx : cond x = false := hpre x (List.mem_cons_self x xs)
      simp only [List.cons_append, applyFirst, hx, Bool.false_eq_true, if_false,
        List.append_eq]
      rw [ih (fun y hy => hpre y (List.mem_cons_of_mem x hy))]

/- Claim C1: pipeline membership and admission bound. -/

/-- Claim C1 (modelled from the spec; the reconciler implementation is not in
this source tree): a record is counted in the reboot pipeline exactly when
one of before-reboot=true, reboot-ok=true or reboot-in-progress=true holds —
in particular a record with only after-reboot=true adds nothing to the count,
while any of the three flags adds one — and phase 5 admits no record once the
pipeline count reaches MaxRebooting, while below the bound (with the window
open) the first eligible record is admitted: its before-reboot label is set
to true and its configured before-hook annotations are cleared. -/
theorem operator_admission_pipeline (cfg : OperCfg)
    (ns ns2 pre post : List MachineNode) (a c : MachineNode) :
    (isTrueL a labelAfterReboot = true → isTrueL a labelBeforeReboot = false →
      isTrueA a annoOkToReboot = false → isTrueA a annoRebootInProgress = false →
      countPipeline (a :: ns) = countPipeline ns)
    ∧ (isTrueL a labelBeforeReboot = true ∨ isTrueA a annoOkToReboot = true
        ∨ isTrueA a annoRebootInProgress = true →
      countPipeline (a :: ns) = countPipeline ns + 1)
    ∧ (cfg.maxRebooting ≤ countPipeline ns2 → phaseAdmit cfg ns2 = ns2)
    ∧ (cfg.windowOpen = true →
        countPipeline (pre ++ c :: post) < cfg.maxRebooting →
        (∀ x ∈ pre, rebootableCond x = false) → rebootableCond c = true →
        ∃ rest, phaseAdmit cfg (pre ++ c :: post)
            = pre ++ admitNode cfg c :: rest
          ∧ lookupS (admitNode cfg c).labels labelBeforeReboot = some "true"
          ∧ ∀ h ∈ cfg.beforeHooks, lookupS (admitNode cfg c).annos h = none) := by
  refine ⟨?_, ?_, ?_, ?_⟩
  · intro h1 h2 h3 h4
    have hp : inPipeline a = false := by simp [inPipeline, h2, h3, h4]
    simp [countPipeline, List.filter_cons, hp]
  · intro h
    have hp : inPipeline a = true := by
      rcases h with h | h | h <;> simp [inPipeline, h]
    simp [countPipeline, List.filter_cons, hp]
  · intro h
    have hz : cfg.maxRebooting - countPipeline ns2 = 0 := by omega
    unfold phaseAdmit
    by_cases hw : cfg.windowOpen <;> simp [hw, hz, applyFirst_zero]
  · intro hw hlt hpre hc
    have hpos : 0 < cfg.maxRebooting - countPipeline (pre ++ c :: post) := by
      omega
    obtain ⟨b, hb⟩ : ∃ b,
        cfg.maxRebooting - countPipeline (pre ++ c :: post) = b + 1 :=
      ⟨cfg.maxRebooting - countPipeline (pre ++ c :: post) - 1, by omega⟩
    refine ⟨applyFirst rebootableCond (admitNode cfg) b post, ?_, ?_, ?_⟩
    · unfold phaseAdmit
      rw [if_pos hw, hb, applyFirst_append_skip _ _ _ _ _ hpre]
      simp [applyFirst, hc]
    · simp [admitNode, lookupS_setS]
    · intro h hh
      simp [admitNode, lookupS_delAllS, hh]

/-- Witness for C1: an after-reboot-only record does not raise the count, a
permitted record does; with the pipeline full no admission happens, with it
empty the candidate's before-reboot label is set. -/
theorem operator_admission_pipeline_witness :
    countPipeline [exAfterOnly] = countPipeline []
    ∧ countPipeline [exPipelineNode] = countPipeline [] + 1
    ∧ phaseAdmit exCfg [exPipelineNode, exCandidate]
        = [exPipelineNode, exCandidate]
    ∧ lookupS (admitNode exCfg exCandidate).labels labelBeforeReboot
        = some "true" := by
  refine ⟨?_, ?_, ?_, ?_⟩
  · exact (operator_admission_pipeline exCfg [] [] [] [] exAfterOnly
      exCandidate).1 (by decide) (by decide) (by decide) (by decide)
  · exact (operator_admission_pipeline exCfg [] [] [] [] exPipelineNode
      exCandidate).2.1 (Or.inr (Or.inl (by decide)))
  · exact (operator_admission_pipeline exCfg []
      [exPipelineNode, exCandidate] [] [] exAfterOnly exCandidate).2.2.1
      (by decide)
  · obtain ⟨rest, _, hl, _⟩ := (operator_admission_pipeline exCfg [] [] [] []
      exAfterOnly exCandidate).2.2.2 rfl (by decide)
      (fun x hx => absurd hx (List.not_mem_nil x)) (by decide)
    exact hl

/- Claim C2: cleanup of records that can no longer reboot. -/

theorem cleanupCond_intro (r : MachineNode)
    (hb : isTrueL r labelBeforeReboot = true)
    (hc : isTrueA r annoRebootNeeded = false
      ∨ isTrueA r annoRebootPaused = true) :
    cleanupCond r = true := by
  rcases hc with h | h <;> simp [cleanupCond, hb, h]

theorem cleanupStable_init (cfg : OperCfg) (r : MachineNode)
    (hwf : cfgWellFormed cfg)
    (hc : isTrueA r annoRebootNeeded = false
      ∨ isTrueA r annoRebootPaused = true) :
    cleanupStable cfg r (cleanupNode cfg r) := by
  obtain ⟨⟨hrn1, _⟩, ⟨hok1, _⟩, _, ⟨hrp1, _⟩⟩ := hwf
  refine ⟨?_, ?_, ?_, ?_⟩
  · simp [cleanupNode, lookupS_delS]
  · intro h hh
    simp [cleanupNode, lookupS_delAllS, hh]
  · intro h
    simpa [cleanupNode, isTrueA, lookupS_delAllS, hok1] using h
  · rcases hc with h | h
    · exact Or.inl (by
        simpa [cleanupNode, isTrueA, lookupS_delAllS, hrn1] using h)
    · exact Or.inr (by
        simpa [cleanupNode, isTrueA, lookupS_delAllS, hrp1] using h)

theorem cleanupStable_finish (cfg : OperCfg) (r0 m : MachineNode)
    (hwf : cfgWellFormed cfg) (hs : cleanupStable cfg r0 m) :
    cleanupStable cfg r0 (finishNode cfg m) := by
  obtain ⟨⟨_, hrn2⟩, ⟨hok1, hok2⟩, _, ⟨_, hrp2⟩⟩ := hwf
  obtain ⟨hs1, hs2, hs3, hs4⟩ := hs
  have dlab : labelBeforeReboot ≠ labelAfterReboot := by decide
  have drnok : annoRebootNeeded ≠ annoOkToReboot := by decide
  have drpok : annoRebootPaused ≠ annoOkToReboot := by decide
  refine ⟨?_, ?_, ?_, ?_⟩
  · simp [finishNode, lookupS_delS, dlab, hs1]
  · intro h hh
    have hne : h ≠ annoOkToReboot := fun e => hok1 (e ▸ hh)
    by_cases hmem : h ∈ cfg.afterHooks
    · simp [finishNode, lookupS_setS, hne, lookupS_delAllS, hmem]
    · simp [finishNode, lookupS_setS, hne, lookupS_delAllS, hmem, hs2 h hh]
  · intro h
    simp [finishNode, isTrueA, lookupS_setS] at h
  · rcases hs4 with h | h
    · exact Or.inl (by
        simpa [finishNode, isTrueA, lookupS_setS, drnok, lookupS_delAllS,
          hrn2] using h)
    · exact Or.inr (by
        simpa [finishNode, isTrueA, lookupS_setS, drpok, lookupS_delAllS,
          hrp2] using h)

theorem cleanupStable_schedule (cfg : OperCfg) (r0 m : MachineNode)
    (hwf : cfgWellFormed cfg) (hs : cleanupStable cfg r0 m) :
    cleanupStable cfg r0 (scheduleAfterNode cfg m) := by
  obtain ⟨⟨_, hrn2⟩, ⟨_, hok2⟩, _, ⟨_, hrp2⟩⟩ := hwf
  obtain ⟨hs1, hs2, hs3, hs4⟩ := hs
  have dlab : labelBeforeReboot ≠ labelAfterReboot := by decide
  refine ⟨?_, ?_, ?_, ?_⟩
  · simp [scheduleAfterNode, lookupS_setS, dlab, hs1]
  · intro h hh
    by_cases hmem : h ∈ cfg.afterHooks
    · simp [scheduleAfterNode, lookupS_delAllS, hmem]
    · simp [scheduleAfterNode, lookupS_delAllS, hmem, hs2 h hh]
  · intro h
    exact hs3 (by simpa [scheduleAfterNode, isTrueA, lookupS_delAllS,
      hok2] using h)
  · rcases hs4 with h | h
    · exact Or.inl (by
        simpa [scheduleAfterNode, isTrueA, lookupS_delAllS, hrn2] using h)
    · exact Or.inr (by
        simpa [scheduleAfterNode, isTrueA, lookupS_delAllS, hrp2] using h)

theorem confirmCond_of_stable (cfg : OperCfg) (r0 m : MachineNode)
    (hs : cleanupStable cfg r0 m) : confirmCond cfg m = false := by
  simp [confirmCond, isTrueL, hs.1]

theorem rebootableCond_of_stable (cfg : OperCfg) (r0 m : MachineNode)
    (hs : cleanupStable cfg r0 m) : rebootableCond m = false := by
  rcases hs.2.2.2 with h | h <;> simp [rebootableCond, h]

theorem get?_map_node (f : MachineNode → MachineNode) (l : List MachineNode)
    (j : Nat) (m : MachineNode) (hj : l.get? j = some m) :
    (l.map f).get? j = some (f m) := by
  rw [List.get?_eq_getElem?] at hj ⊢
  simp [List.getElem?_map, hj]

theorem reconcile_inert_untouched (cfg : OperCfg) (ns : List MachineNode)
    (j : Nat) (r2 : MachineNode) (hj : ns.get? j = some r2)
    (hb : isTrueL r2 labelBeforeReboot = false)
    (ha : isTrueL r2 labelAfterReboot = false)
    (hok : isTrueA r2 annoOkToReboot = false)
    (hn : isTrueA r2 annoRebootNeeded = false) :
    (reconcile cfg ns).get? j = some r2 := by
  have c1 : cleanupCond r2 = false := by simp [cleanupCond, hb]
  have c2 : finishCond cfg r2 = false := by simp [finishCond, ha]
  have c3 : scheduleAfterCond r2 = false := by simp [scheduleAfterCond, hok]
  have c4 : confirmCond cfg r2 = false := by simp [confirmCond, hb]
  have c5 : rebootableCond r2 = false := by simp [rebootableCond, hn]
  have h1 : (phaseCleanup cfg ns).get? j = some r2 := by
    simpa [phaseCleanup, c1] using
      get?_map_node (fun n => if cleanupCond n then cleanupNode cfg n else n)
        ns j r2 hj
  have h2 : (phaseFinish cfg (phaseCleanup cfg ns)).get? j = some r2 := by
    simpa [phaseFinish, c2] using
      get?_map_node (fun n => if finishCond cfg n then finishNode cfg n else n)
        (phaseCleanup cfg ns) j r2 h1
  have h3 : (phaseScheduleAfter cfg (phaseFinish cfg
      (phaseCleanup cfg ns))).get? j = some r2 := by
    simpa [phaseScheduleAfter, c3] using
      get?_map_node
        (fun n => if scheduleAfterCond n then scheduleAfterNode cfg n else n)
        (phaseFinish cfg (phaseCleanup cfg ns)) j r2 h2
  have h4 : (phaseConfirm cfg (phaseScheduleAfter cfg (phaseFinish cfg
      (phaseCleanup cfg ns)))).get? j = some r2 := by
    simpa [phaseConfirm, c4] using
      get?_map_node (fun n => if confirmCond cfg n then confirmNode cfg n else n)
        (phaseScheduleAfter cfg (phaseFinish cfg (phaseCleanup cfg ns))) j r2 h3
  simp only [reconcile]
  unfold phaseAdmit
  by_cases hw : cfg.windowOpen = true
  · simp only [hw, if_true]
    exact applyFirst_get?_of_not_cond _ _ _ _ _ _ h4 c5
  · simp only [Bool.not_eq_true] at hw
    simp only [hw, Bool.false_eq_true, if_false]
    exact h4

/-- Claim C2 fails as stated (modelled from the spec; the reconciler
implementation is not in this source tree): the cycle that cleans up a
cancelled record does not leave the before-hook annotations of every other
record unchanged. Concretely, next to the cancelled record a second record
that merely wants a reboot and still carries a stale before-hook annotation
is admitted by phase 5 of the same cycle, which clears that annotation. -/
theorem operator_cleanup_frame_cex :
    isTrueL exCancelled labelBeforeReboot = true
    ∧ isTrueA exCancelled annoRebootNeeded = false
    ∧ nodeAtAnno [exCancelled, exCandidateHooked] 1 "test-before-hook"
        = some (some "false")
    ∧ nodeAtAnno (reconcile exCfg [exCancelled, exCandidateHooked]) 1
        "test-before-hook" = some none := by decide

/-- Claim C2 (amended; modelled from the spec, the reconciler implementation
is not in this source tree): a record with before-reboot=true that no longer
needs a reboot (reboot-needed ≠ true or reboot-paused = true) has, after one
reconcile cycle, its before-reboot label removed and every configured
before-hook annotation removed, and the cycle never turns its reboot-ok
annotation to true; the before-hook annotations (and everything else) of
another record are left unchanged provided that record is matched by no
phase of the cycle — its before-reboot and after-reboot labels not true and
its reboot-ok and reboot-needed annotations not true — records the same
cycle admits or confirms do get their before-hook annotations cleared by
those phases. Hook names are assumed distinct from the protocol keys
(cfgWellFormed). -/
theorem operator_cleanup_cycle (cfg : OperCfg) (ns : List MachineNode)
    (i : Nat) (r : MachineNode) (hwf : cfgWellFormed cfg)
    (hi : ns.get? i = some r)
    (hb : isTrueL r labelBeforeReboot = true)
    (hc : isTrueA r annoRebootNeeded = false
      ∨ isTrueA r annoRebootPaused = true) :
    nodeAtLabel (reconcile cfg ns) i labelBeforeReboot = some none
    ∧ (∀ h ∈ cfg.beforeHooks, nodeAtAnno (reconcile cfg ns) i h = some none)
    ∧ (nodeAtAnno (reconcile cfg ns) i annoOkToReboot = some (some "true") →
        isTrueA r annoOkToReboot = true)
    ∧ ∀ j r2, ns.get? j = some r2 →
        isTrueL r2 labelBeforeReboot = false →
        isTrueL r2 labelAfterReboot = false →
        isTrueA r2 annoOkToReboot = false →
        isTrueA r2 annoRebootNeeded = false →
        (reconcile cfg ns).get? j = some r2 := by
  have h1 : (phaseCleanup cfg ns).get? i = some (cleanupNode cfg r) := by
    simpa [phaseCleanup, cleanupCond_intro r hb hc] using
      get?_map_node (fun n => if cleanupCond n then cleanupNode cfg n else n)
        ns i r hi
  have hs1 : cleanupStable cfg r (cleanupNode cfg r) :=
    cleanupStable_init cfg r hwf hc
  obtain ⟨m2, h2, hs2⟩ : ∃ m2,
      (phaseFinish cfg (phaseCleanup cfg ns)).get? i = some m2
      ∧ cleanupStable cfg r m2 := by
    by_cases hfc : finishCond cfg (cleanupNode cfg r) = true
    · refine ⟨finishNode cfg (cleanupNode cfg r), ?_,
        cleanupStable_finish cfg r _ hwf hs1⟩
      simpa [phaseFinish, hfc] using
        get?_map_node (fun n => if finishCond cfg n then finishNode cfg n else n)
          (phaseCleanup cfg ns) i (cleanupNode cfg r) h1
    · refine ⟨cleanupNode cfg r, ?_, hs1⟩
      simp only [Bool.not_eq_true] at hfc
      simpa [phaseFinish, hfc] using
        get?_map_node (fun n => if finishCond cfg n then finishNode cfg n else n)
          (phaseCleanup cfg ns) i (cleanupNode cfg r) h1
  obtain ⟨m3, h3, hs3⟩ : ∃ m3,
      (phaseScheduleAfter cfg (phaseFinish cfg
        (phaseCleanup cfg ns))).get? i = some m3
      ∧ cleanupStable cfg r m3 := by
    by_cases hsc : scheduleAfterCond m2 = true
    · refine ⟨scheduleAfterNode cfg m2, ?_,
        cleanupStable_schedule cfg r m2 hwf hs2⟩
      simpa [phaseScheduleAfter, hsc] using
        get?_map_node
          (fun n => if scheduleAfterCond n then scheduleAfterNode cfg n else n)
          (phaseFinish cfg (phaseCleanup cfg ns)) i m2 h2
    · refine ⟨m2, ?_, hs2⟩
      simp only [Bool.not_eq_true] at hsc
      simpa [phaseScheduleAfter, hsc] using
        get?_map_node
          (fun n => if scheduleAfterCond n then scheduleAfterNode cfg n else n)
          (phaseFinish cfg (phaseCleanup cfg ns)) i m2 h2
  have h4 : (phaseConfirm cfg (phaseScheduleAfter cfg (phaseFinish cfg
      (phaseCleanup cfg ns)))).get? i = some m3 := by
    simpa [phaseConfirm, confirmCond_of_stable cfg r m3 hs3] using
      get?_map_node (fun n => if confirmCond cfg n then confirmNode cfg n else n)
        (phaseScheduleAfter cfg (phaseFinish cfg (phaseCleanup cfg ns))) i m3 h3
  have h5 : (reconcile cfg ns).get? i = some m3 := by
    simp only [reconcile]
    unfold phaseAdmit
    by_cases hw : cfg.windowOpen = true
    · simp only [hw, if_true]
      exact applyFirst_get?_of_not_cond _ _ _ _ _ _ h4
        (rebootableCond_of_stable cfg r m3 hs3)
    · simp only [Bool.not_eq_true] at hw
      simp only [hw, Bool.false_eq_true, if_false]
      exact h4
  refine ⟨?_, ?_, ?_, ?_⟩
  · simp only [nodeAtLabel, h5, Option.map_some']
    rw [hs3.1]
  · intro h hh
    simp only [nodeAtAnno, h5, Option.map_some']
    rw [hs3.2.1 h hh]
  · intro hok
    simp only [nodeAtAnno, h5, Option.map_some'] at hok
    injection hok with hok
    exact hs3.2.2.1 (by simp [isTrueA, hok])
  · intro j r2 hj f1 f2 f3 f4
    exact reconcile_inert_untouched cfg ns j r2 hj f1 f2 f3 f4

/-- Witness for C2: one cycle on a cancelled record clears its before-reboot
label and hook annotation without granting reboot-ok, and leaves the inert
neighbour byte-for-byte unchanged. -/
theorem operator_cleanup_cycle_witness :
    nodeAtLabel (reconcile exCfg [exCancelled, exInert]) 0 labelBeforeReboot
      = some none
    ∧ nodeAtAnno (reconcile exCfg [exCancelled, exInert]) 0 "test-before-hook"
      = some none
    ∧ (reconcile exCfg [exCancelled, exInert]).get? 1 = some exInert := by
  have h := operator_cleanup_cycle exCfg [exCancelled, exInert] 0 exCancelled
    (by refine ⟨⟨?_, ?_⟩, ⟨?_, ?_⟩, ⟨?_, ?_⟩, ⟨?_, ?_⟩⟩ <;> decide)
    rfl (by decide) (Or.inl (by decide))
  exact ⟨h.1, h.2.1 "test-before-hook" (by decide),
    h.2.2.2 1 exInert rfl (by decide) (by decide) (by decide) (by decide)⟩

/- Claim C6: error atomicity of a reconcile cycle. -/

/-- Claim C6 (modelled from the spec; the reconciler implementation is not in
this source tree): a cycle with no failing call performs exactly the five
phases; when the k-th phase's list call or one of its update calls fails, the
cycle reports the failure, the state keeps exactly the phases completed
before phase k plus the updates of phase k that preceded the failing call,
and no write of any later phase is performed. -/
theorem operator_error_atomicity (cfg : OperCfg) (ns : List MachineNode)
    (k : Nat) (c : CallFail) (hk : k < 5) :
    runReconcileF cfg ns none = (reconcile cfg ns, false)
    ∧ (runReconcileF cfg ns (some (k, c))).2 = true
    ∧ (runReconcileF cfg ns (some (k, c))).1 =
        match c with
        | .listCall => applyPhasesUpTo cfg k ns
        | .updateCall i => phasePartialAt cfg k i (applyPhasesUpTo cfg k ns) := by
  refine ⟨rfl, ?_, ?_⟩
  · interval_cases k <;> cases c <;> rfl
  · interval_cases k <;> cases c <;> rfl

/-- Witness for C6: a list failure in the first phase leaves the cancelled
record untouched and reports the aborted cycle. -/
theorem operator_error_atomicity_witness :
    (runReconcileF exCfg [exCancelled] (some (0, CallFail.listCall))).2 = true
    ∧ (runReconcileF exCfg [exCancelled] (some (0, CallFail.listCall))).1
        = [exCancelled] := by
  have h := operator_error_atomicity exCfg [exCancelled] 0 CallFail.listCall
    (by omega)
  refine ⟨h.2.1, ?_⟩
  rw [h.2.2]
  rfl

end Fluo
